import Mathlib

/-!
Shallow embedding of the SlurmManager class (src/slurm_manager/slurm.py).

Modelling conventions:
* The external scheduler (sbatch / scontrol / scancel child processes) is an
  oracle, the Sched structure: it fixes the stdout of the one sbatch call and,
  per job id, the stdout/stderr of a scontrol query and the exit code and
  stderr of a scancel call.  Every child-process invocation an operation makes
  is recorded in a SchedCall trace.
* The sqlite jobs table is a DB value: a list of rows in insertion order plus
  the next surrogate key.  The sqlite connection context manager commits on
  success and rolls back on an exception, so an operation that raises mid-way
  leaves the stored DB unchanged; a raised Python exception is modelled as an
  Option none (refresh) or a dedicated crash outcome (submit).
* Python re.search over the fixed patterns used by the code is modelled by
  findCapture: leftmost position where the literal tag is followed by at least
  one character of the class, capturing the maximal run.  Character classes
  are modelled on their ASCII fragment (the code only meets ASCII scheduler
  text).  A failed re.search makes .group(1) raise AttributeError, modelled as
  none.
* The two logging sinks are modelled as the lists of entries an operation
  appends to each; an entry is its level plus the formatted message string.
-/

/-- ASCII fragment of the Python regex class backslash-s. -/
def pySpace (c : Char) : Bool :=
  c == ' ' || c == '\t' || c == '\n' || c == '\r' || c == '\x0b' || c == '\x0c'

/-- Python str.upper on the ASCII fragment the code meets. -/
def pyUpper (s : String) : String := String.mk (s.toList.map Char.toUpper)

/-- Python str.lower on the ASCII fragment the code meets. -/
def pyLower (s : String) : String := String.mk (s.toList.map Char.toLower)

/-- Try to match the literal tag followed by a nonempty run of class p at the
head of s; return the captured run. -/
def capHere (tag : List Char) (p : Char → Bool) (s : List Char) : Option (List Char) :=
  if tag.isPrefixOf s then
    match s.drop tag.length with
    | [] => none
    | d :: ds => if p d then some (d :: ds.takeWhile p) else none
  else none

/-- re.search for a pattern tag(C+) with C a character class: scan left to
right for the first position where the whole pattern matches and return the
capture, none when the pattern matches nowhere. -/
def findCapture (tag : List Char) (p : Char → Bool) : List Char → Option (List Char)
  | [] => none
  | c :: rest =>
    match capHere tag p (c :: rest) with
    | some cap => some cap
    | none => findCapture tag p rest

/-- The three facts parse_scontrol_output extracts from scontrol stdout. -/
structure JobDetails where
  jobid : String
  status : String
  workingdir : String
deriving DecidableEq

/-- SlurmManager.parse_scontrol_output: extract JobId=(digits),
JobState=(non-space run), WorkDir=(non-space run) from the scontrol stdout.
When any of the three re.search calls fails the Python code raises
AttributeError on .group(1); that path is the none value. -/
def parse_scontrol_output (output : String) : Option JobDetails :=
  match findCapture "JobId=".toList Char.isDigit output.toList,
        findCapture "JobState=".toList (fun c => !pySpace c) output.toList,
        findCapture "WorkDir=".toList (fun c => !pySpace c) output.toList with
  | some a, some b, some c => some (JobDetails.mk (String.mk a) (String.mk b) (String.mk c))
  | _, _, _ => none

/-- One row of the jobs table:
(id INTEGER PRIMARY KEY, parent_dir, jobid, jobname, status, workingdir). -/
structure JobRecord where
  id : Nat
  parent_dir : String
  jobid : String
  jobname : String
  status : String
  workingdir : String
deriving DecidableEq

/-- The jobs table: rows in insertion order plus the next surrogate key. -/
structure DB where
  records : List JobRecord
  nextId : Nat
deriving DecidableEq

/-- SlurmManager.insert_job: append one row scoped to the parent directory. -/
def insert_job (parent : String) (db : DB) (jobid jobname status workingdir : String) : DB :=
  DB.mk (db.records ++ [JobRecord.mk db.nextId parent jobid jobname status workingdir])
    (db.nextId + 1)

/-- Oracle for the external scheduler processes. -/
structure Sched where
  sbatchOut : String
  scontrolOut : String → String
  scontrolErr : String → String
  scancelOut : String → String
  scancelCode : String → Int
  scancelErr : String → String

/-- One child-process invocation of the scheduler. -/
inductive SchedCall where
  | sbatch (dir : String)
  | scontrol (jobid : String)
  | scancel (jobid : String)
deriving DecidableEq

def isSbatchCall : SchedCall → Bool
  | SchedCall.sbatch _ => true
  | _ => false

/-- The scheduler-specific phrase the code looks for in scontrol stderr. -/
def invalidPhrase : String := "Invalid job id specified"

/-- Python substring test (the in operator) on char lists. -/
def isInfixL (needle : List Char) : List Char → Bool
  | [] => needle.isEmpty
  | c :: rest => needle.isPrefixOf (c :: rest) || isInfixL needle rest

/-- The status one refresh iteration computes for a job id: UNKNOWN when the
invalid-id phrase is in the scontrol stderr, otherwise the parsed JobState
token; none models the AttributeError raised on unparseable stdout. -/
def statusFor (sched : Sched) (jobid : String) : Option String :=
  if isInfixL invalidPhrase.toList (sched.scontrolErr jobid).toList then some "UNKNOWN"
  else (parse_scontrol_output (sched.scontrolOut jobid)).map JobDetails.status

/-- Overwrite only the status column of a row. -/
def setStatus (r : JobRecord) (st : String) : JobRecord :=
  JobRecord.mk r.id r.parent_dir r.jobid r.jobname st r.workingdir

/-- UPDATE jobs SET status=? WHERE jobid=? AND parent_dir=?. -/
def applyUpdate (parent jobid st : String) (recs : List JobRecord) : List JobRecord :=
  recs.map fun r => if r.jobid == jobid && r.parent_dir == parent then setStatus r st else r

/-- The loop body of refresh_job_status over the fetched job ids: one scontrol
call per id, then the UPDATE; an unparseable response raises, which aborts the
loop (the pending transaction is then rolled back by the caller). -/
def refreshLoop (sched : Sched) (parent : String) :
    List JobRecord → List String → List SchedCall × Option (List JobRecord)
  | recs, [] => ([], some recs)
  | recs, j :: rest =>
    match statusFor sched j with
    | none => ([SchedCall.scontrol j], none)
    | some st =>
      let out := refreshLoop sched parent (applyUpdate parent j st recs) rest
      (SchedCall.scontrol j :: out.1, out.2)

/-- Result of a refresh: the scheduler calls made, and the committed table, or
none when the loop raised (rollback: the stored table is unchanged and the
exception propagates to the caller). -/
structure RefreshRes where
  calls : List SchedCall
  db : Option DB

/-- SELECT jobid FROM jobs WHERE parent_dir=... (in row order). -/
def jobidsOf (parent : String) (recs : List JobRecord) : List String :=
  (recs.filter (fun r => r.parent_dir == parent)).map JobRecord.jobid

/-- SlurmManager.refresh_job_status. -/
def refresh_job_status (sched : Sched) (parent : String) (db : DB) : RefreshRes :=
  let out := refreshLoop sched parent db.records (jobidsOf parent db.records)
  RefreshRes.mk out.1 (out.2.map (fun recs => DB.mk recs db.nextId))

/-- Row predicate of the job_table SQL query: parent_dir match, plus the
status clause that is added only when the Python status argument is truthy
(not None and not the empty string); the filter value is upper-cased, the
stored status is compared exactly. -/
def upperFilter (parent : String) (status : Option String) (r : JobRecord) : Bool :=
  r.parent_dir == parent &&
    (match status with
     | none => true
     | some s => s == "" || r.status == pyUpper s)

/-- Result of job_table: the scheduler calls made by the embedded refresh and,
unless the refresh raised, the committed table plus the selected rows. -/
structure TableRes where
  calls : List SchedCall
  result : Option (DB × List JobRecord)

/-- SlurmManager.job_table: refresh first, then select the rows of this
parent directory, optionally restricted by the status clause. -/
def job_table (sched : Sched) (parent : String) (db : DB) (status : Option String) : TableRes :=
  TableRes.mk (refresh_job_status sched parent db).calls
    ((refresh_job_status sched parent db).db.map
      (fun db2 => (db2, db2.records.filter (upperFilter parent status))))

inductive LogLevel where
  | info
  | warning
  | error
deriving DecidableEq

/-- One formatted line appended to a sink. -/
structure LogEntry where
  level : LogLevel
  msg : String
deriving DecidableEq

def msgActive (dir status : String) : String :=
  "A job from working directory " ++ dir ++ " is already " ++ status

def msgCancelledBefore (dir : String) : String :=
  "A job from working directory " ++ dir ++ " was previously cancelled"

def msgSubmitLocal (jobid jobname : String) : String :=
  "Submitted job with JobID: " ++ jobid ++ ", JobName for DB: " ++ jobname

def msgSubmitGlobal (jobid dir : String) : String :=
  "Submitted job with JobID: " ++ jobid ++ " in directory: " ++ dir

def msgCancelOkLocal (jobid : String) : String :=
  "Cancelled SLURM job with SlurmJobID: " ++ jobid

def msgCancelOkGlobal (jobid dir : String) : String :=
  "Cancelled SLURM job with SlurmJobID: " ++ jobid ++ " from directory: " ++ dir

def msgCancelFailLocal (jobid err : String) : String :=
  "Failed to cancel SLURM job with SlurmJobID: " ++ jobid ++ ". Error: " ++ err

def msgCancelFailGlobal (jobid dir err : String) : String :=
  "Failed to cancel SLURM job with SlurmJobID: " ++ jobid ++ " from directory: " ++ dir
    ++ ". Error: " ++ err

/-- How a submit_job call ends: early return on an active duplicate (skip),
normal completion (ok), or one of the raised exceptions: a crash propagated
out of the embedded refresh, the TypeError from running scontrol with the
None job id when sbatch stdout had no id, or the AttributeError from parsing
malformed scontrol stdout. -/
inductive SubmitOutcome where
  | skip
  | ok (jobid : String)
  | errRefresh
  | errNoJobId
  | errParse
deriving DecidableEq

/-- Observable result of submit_job: the stored table afterwards, the outcome
and the entries appended to each sink plus the scheduler call trace. -/
structure SubmitRes where
  db : DB
  outcome : SubmitOutcome
  localLog : List LogEntry
  globalLog : List LogEntry
  calls : List SchedCall
deriving DecidableEq

def defaultRec : JobRecord := JobRecord.mk 0 "" "" "" "" ""

def isActive (r : JobRecord) : Bool :=
  r.status == "RUNNING" || r.status == "PENDING"

/-- Tail of submit_job after a job id was parsed from sbatch stdout: query
scontrol for the details, parse them (AttributeError on failure), and insert
the row built entirely from the parsed scheduler response. -/
def submitInsert (sched : Sched) (parent : String) (db1 : DB) (abs_path jobname : String)
    (preLog : List LogEntry) (calls1 : List SchedCall) (jobid : String) : SubmitRes :=
  match parse_scontrol_output (sched.scontrolOut jobid) with
  | none =>
    SubmitRes.mk db1 SubmitOutcome.errParse preLog [] (calls1 ++ [SchedCall.scontrol jobid])
  | some d =>
    SubmitRes.mk (insert_job parent db1 d.jobid jobname d.status d.workingdir)
      (SubmitOutcome.ok jobid)
      (preLog ++ [LogEntry.mk LogLevel.info (msgSubmitLocal jobid jobname)])
      [LogEntry.mk LogLevel.info (msgSubmitGlobal jobid abs_path)]
      (calls1 ++ [SchedCall.scontrol jobid])

/-- Middle of submit_job: run sbatch and search its stdout for the job id.
When the search fails, jobid is None and the following subprocess.run call for
scontrol raises TypeError before it executes, so no scontrol call is traced
and nothing is inserted. -/
def submitSbatch (sched : Sched) (parent : String) (db1 : DB) (abs_path jobname : String)
    (preLog : List LogEntry) (calls1 : List SchedCall) : SubmitRes :=
  match findCapture "Submitted batch job ".toList Char.isDigit sched.sbatchOut.toList with
  | none => SubmitRes.mk db1 SubmitOutcome.errNoJobId preLog [] calls1
  | some jid => submitInsert sched parent db1 abs_path jobname preLog calls1 (String.mk jid)

/-- The rows of the refreshed table whose workingdir equals the absolutized
caller path: existing_jobs[existing_jobs[workingdir] == str(abs_path)]. -/
def matchingOf (parent p : String) (db1 : DB) : List JobRecord :=
  (db1.records.filter (upperFilter parent none)).filter (fun r => r.workingdir == p)

/-- The matching rows whose status is RUNNING or PENDING. -/
def activeOf (parent p : String) (db1 : DB) : List JobRecord :=
  (matchingOf parent p db1).filter isActive

/-- The informational warning submit emits (local sink only) when matching
rows exist, none is active, and one was CANCELLED. -/
def preLogOf (parent p : String) (db1 : DB) : List LogEntry :=
  if !(matchingOf parent p db1).isEmpty && (activeOf parent p db1).isEmpty &&
      (matchingOf parent p db1).any (fun r => r.status == "CANCELLED")
  then [LogEntry.mk LogLevel.warning (msgCancelledBefore p)] else []

/-- Body of submit_job after the embedded refresh committed db1: the
duplicate check over rows whose workingdir equals the absolutized path, the
early skip (warning to the local sink only), then the actual submission. -/
def submitCore (sched : Sched) (parent : String) (db1 : DB) (abs_path jobname : String)
    (resubmit : Bool) (tr : List SchedCall) : SubmitRes :=
  if !(activeOf parent abs_path db1).isEmpty && !resubmit then
    SubmitRes.mk db1 SubmitOutcome.skip
      [LogEntry.mk LogLevel.warning
        (msgActive abs_path (((activeOf parent abs_path db1).headD defaultRec).status))]
      [] tr
  else
    submitSbatch sched parent db1 abs_path jobname (preLogOf parent abs_path db1)
      (tr ++ [SchedCall.sbatch abs_path])

/-- SlurmManager.submit_job.  abs_path is the already absolutized caller path
str(Path(path).absolute()); filesystem path resolution is outside the model,
the code only ever uses the resulting string.  The call to job_table first
runs the refresh; when that raises, the exception propagates and the stored
table is left as rolled back. -/
def submit_job (sched : Sched) (parent : String) (db : DB) (abs_path jobname : String)
    (resubmit : Bool) : SubmitRes :=
  match (refresh_job_status sched parent db).db with
  | none =>
    SubmitRes.mk db SubmitOutcome.errRefresh [] [] (refresh_job_status sched parent db).calls
  | some db1 =>
    submitCore sched parent db1 abs_path jobname resubmit (refresh_job_status sched parent db).calls

/-- Observable result of cancel_job: the stored table afterwards (never
touched), the entries appended to each sink, and the scheduler call trace. -/
structure CancelRes where
  db : DB
  localLog : List LogEntry
  globalLog : List LogEntry
  calls : List SchedCall
deriving DecidableEq

/-- SlurmManager.cancel_job: run scancel; branch solely on the exit code, log
success at info level to both sinks, or the failure with the captured stderr
at error level to both sinks; the jobs table is never read or written. -/
def cancel_job (sched : Sched) (parent : String) (db : DB) (slurm_jobid : String) : CancelRes :=
  if sched.scancelCode slurm_jobid == 0 then
    CancelRes.mk db
      [LogEntry.mk LogLevel.info (msgCancelOkLocal slurm_jobid)]
      [LogEntry.mk LogLevel.info (msgCancelOkGlobal slurm_jobid parent)]
      [SchedCall.scancel slurm_jobid]
  else
    CancelRes.mk db
      [LogEntry.mk LogLevel.error (msgCancelFailLocal slurm_jobid (sched.scancelErr slurm_jobid))]
      [LogEntry.mk LogLevel.error
        (msgCancelFailGlobal slurm_jobid parent (sched.scancelErr slurm_jobid))]
      [SchedCall.scancel slurm_jobid]

/-- Net effect of one full successful refresh on a single row, given the job
ids js the refresh iterates over: rows of this parent whose id was fetched get
the scheduler-derived status, everything else is untouched. -/
def applyAll (sched : Sched) (parent : String) (js : List String) (r : JobRecord) : JobRecord :=
  if r.parent_dir == parent && js.contains r.jobid then
    setStatus r ((statusFor sched r.jobid).getD r.status)
  else r

/-- Scheduler view: job 123 is PENDING; nothing else answers. -/
def sched1 : Sched := Sched.mk ""
  (fun j => if j == "123" then "JobId=123 JobState=PENDING WorkDir=/jobs/a" else "")
  (fun _ => "") (fun _ => "") (fun _ => 0) (fun _ => "")

/-- Store with one PENDING row for working directory /jobs/a. -/
def db1cex : DB := DB.mk [JobRecord.mk 1 "/jobs" "123" "a" "PENDING" "/jobs/a"] 2

/-- Empty store. -/
def db0 : DB := DB.mk [] 1

/-- Scheduler whose sbatch acknowledgment carries no parseable job id. -/
def sched2bad : Sched := Sched.mk "sbatch: error: Batch job submission failed"
  (fun _ => "") (fun _ => "") (fun _ => "") (fun _ => 0) (fun _ => "")

/-- Scheduler view: job 11 is unrecognized, job 12 reports COMPLETED. -/
def sched3 : Sched := Sched.mk ""
  (fun j => if j == "12" then "JobId=12 JobState=COMPLETED WorkDir=/q/b" else "")
  (fun j => if j == "11" then "scontrol: Invalid job id specified" else "")
  (fun _ => "") (fun _ => 0) (fun _ => "")

/-- Store with two rows for /q, job ids 11 and 12. -/
def db3 : DB := DB.mk
  [JobRecord.mk 1 "/q" "11" "a" "PENDING" "/q/a",
   JobRecord.mk 2 "/q" "12" "b" "RUNNING" "/q/b"] 3

/-- db3 after one refresh against sched3. -/
def db3r : DB := DB.mk
  [JobRecord.mk 1 "/q" "11" "a" "UNKNOWN" "/q/a",
   JobRecord.mk 2 "/q" "12" "b" "COMPLETED" "/q/b"] 3

/-- Scheduler view: job 9 reports the mixed-case state token Running. -/
def sched4 : Sched := Sched.mk ""
  (fun j => if j == "9" then "JobId=9 JobState=Running WorkDir=/p/a" else "")
  (fun _ => "") (fun _ => "") (fun _ => 0) (fun _ => "")

/-- Store with one row for /p whose job id is 9. -/
def db4 : DB := DB.mk [JobRecord.mk 9 "/p" "9" "a" "PENDING" "/p/a"] 10

/-- db4 after one refresh against sched4. -/
def db4r : DB := DB.mk [JobRecord.mk 9 "/p" "9" "a" "Running" "/p/a"] 10

/-- Rows job_table returns for /p on db4r with no filter. -/
def rows4 : List JobRecord := db4r.records

/-- Scheduler view: job 21 reports RUNNING. -/
def sched6 : Sched := Sched.mk ""
  (fun j => if j == "21" then "JobId=21 JobState=RUNNING WorkDir=/w/a" else "")
  (fun _ => "") (fun _ => "") (fun _ => 0) (fun _ => "")

/-- Store with one PENDING row for /w, job id 21. -/
def db6 : DB := DB.mk [JobRecord.mk 3 "/w" "21" "nm" "PENDING" "/w/a"] 4

/-- db6 after one refresh against sched6. -/
def db6r : DB := DB.mk [JobRecord.mk 3 "/w" "21" "nm" "RUNNING" "/w/a"] 4

/-- Rows job_table returns for /w on db6r with no filter. -/
def rows6 : List JobRecord := db6r.records

/-- Scheduler view: the detail query for job 1 answers with stdout missing
the JobId= marker, job 2 answers well-formed. -/
def sched7 : Sched := Sched.mk ""
  (fun j => if j == "1" then "JobState=RUNNING WorkDir=/p/a"
            else "JobId=2 JobState=RUNNING WorkDir=/p/b")
  (fun _ => "") (fun _ => "") (fun _ => 0) (fun _ => "")

/-- Store with two rows for /p, job ids 1 and 2. -/
def db7 : DB := DB.mk
  [JobRecord.mk 1 "/p" "1" "a" "PENDING" "/p/a",
   JobRecord.mk 2 "/p" "2" "b" "PENDING" "/p/b"] 3

/-- Scheduler whose scancel exits 1 with stderr boom. -/
def sched8 : Sched := Sched.mk "" (fun _ => "") (fun _ => "") (fun _ => "")
  (fun _ => 1) (fun _ => "boom")

/-- Scheduler view: sbatch acknowledges job 7; the detail query for 7 echoes
WorkDir=/jobs/b, the one for 5 echoes the trailing-slash path /jobs/a/. -/
def sched10 : Sched := Sched.mk "Submitted batch job 7"
  (fun j => if j == "7" then "JobId=7 JobState=PENDING WorkDir=/jobs/b"
            else "JobId=5 JobState=PENDING WorkDir=/jobs/a/")
  (fun _ => "") (fun _ => "") (fun _ => 0) (fun _ => "")

/-- Store with one active row whose stored workingdir /jobs/a/ differs only
by a trailing slash from the caller path /jobs/a. -/
def db10 : DB := DB.mk [JobRecord.mk 4 "/jobs" "5" "old" "PENDING" "/jobs/a/"] 5

@[simp] theorem setStatus_id (r : JobRecord) (st : String) : (setStatus r st).id = r.id := rfl

@[simp] theorem setStatus_parent (r : JobRecord) (st : String) :
    (setStatus r st).parent_dir = r.parent_dir := rfl

@[simp] theorem setStatus_jobid (r : JobRecord) (st : String) :
    (setStatus r st).jobid = r.jobid := rfl

@[simp] theorem setStatus_jobname (r : JobRecord) (st : String) :
    (setStatus r st).jobname = r.jobname := rfl

@[simp] theorem setStatus_workingdir (r : JobRecord) (st : String) :
    (setStatus r st).workingdir = r.workingdir := rfl

@[simp] theorem setStatus_status (r : JobRecord) (st : String) :
    (setStatus r st).status = st := rfl

theorem contains_cons_self (a : String) (l : List String) : (a :: l).contains a = true := by
  simp [List.contains, List.elem]

theorem contains_cons_ne (a b : String) (l : List String) (h : a ≠ b) :
    (b :: l).contains a = l.contains a := by
  have hab : (a == b) = false := by simp [h]
  simp [List.contains, List.elem, hab]

theorem contains_of_mem (a : String) (l : List String) (h : a ∈ l) : l.contains a = true := by
  induction l with
  | nil => cases h
  | cons b t ih =>
    by_cases hab : a = b
    · subst hab; exact contains_cons_self a t
    · rw [contains_cons_ne a b t hab]
      cases h with
      | head => exact absurd rfl hab
      | tail _ h2 => exact ih h2

theorem mem_of_contains (a : String) (l : List String) (h : l.contains a = true) : a ∈ l := by
  induction l with
  | nil => simp [List.contains, List.elem] at h
  | cons b t ih =>
    by_cases hab : a = b
    · subst hab; exact List.mem_cons_self a t
    · rw [contains_cons_ne a b t hab] at h
      exact List.mem_cons_of_mem b (ih h)

@[simp] theorem applyAll_id_eq (sched : Sched) (parent : String) (js : List String)
    (r : JobRecord) : (applyAll sched parent js r).id = r.id := by
  unfold applyAll; split <;> rfl

@[simp] theorem applyAll_parent_eq (sched : Sched) (parent : String) (js : List String)
    (r : JobRecord) : (applyAll sched parent js r).parent_dir = r.parent_dir := by
  unfold applyAll; split <;> rfl

@[simp] theorem applyAll_jobid_eq (sched : Sched) (parent : String) (js : List String)
    (r : JobRecord) : (applyAll sched parent js r).jobid = r.jobid := by
  unfold applyAll; split <;> rfl

@[simp] theorem applyAll_jobname_eq (sched : Sched) (parent : String) (js : List String)
    (r : JobRecord) : (applyAll sched parent js r).jobname = r.jobname := by
  unfold applyAll; split <;> rfl

@[simp] theorem applyAll_workingdir_eq (sched : Sched) (parent : String) (js : List String)
    (r : JobRecord) : (applyAll sched parent js r).workingdir = r.workingdir := by
  unfold applyAll; split <;> rfl

theorem applyAll_status (sched : Sched) (parent : String) (js : List String) (r : JobRecord)
    (hp : r.parent_dir = parent) (hc : r.jobid ∈ js) :
    (applyAll sched parent js r).status = (statusFor sched r.jobid).getD r.status := by
  unfold applyAll
  simp [hp, hc]

theorem applyAll_eq_of_not (sched : Sched) (parent : String) (js : List String) (r : JobRecord)
    (h : ¬(r.parent_dir = parent ∧ r.jobid ∈ js)) :
    applyAll sched parent js r = r := by
  unfold applyAll
  simp [h]

theorem applyAll_update (sched : Sched) (parent j st : String) (rest : List String)
    (h : statusFor sched j = some st) (r : JobRecord) :
    applyAll sched parent rest (if r.jobid == j && r.parent_dir == parent then setStatus r st else r) =
      applyAll sched parent (j :: rest) r := by
  by_cases hj : r.jobid = j
  · by_cases hp : r.parent_dir = parent
    · subst hj; subst hp
      cases hc : rest.contains r.jobid <;>
        simp [applyAll, setStatus, contains_cons_self, hc, h]
    · have hp2 : (r.parent_dir == parent) = false := by simp [hp]
      simp [applyAll, hp2]
  · have hj2 : (r.jobid == j) = false := by simp [hj]
    simp [applyAll, hj2, hj]

theorem refreshLoop_snd (sched : Sched) (parent : String) :
    ∀ (js : List String) (recs : List JobRecord),
      (refreshLoop sched parent recs js).2 =
        if js.all (fun j => (statusFor sched j).isSome)
        then some (recs.map (applyAll sched parent js))
        else none := by
  intro js
  induction js with
  | nil =>
    intro recs
    have hmap : recs.map (applyAll sched parent []) = recs := by
      have hfun : applyAll sched parent [] = fun r => r := by
        funext r
        exact applyAll_eq_of_not sched parent [] r (by simp)
      simp [hfun]
    simp [refreshLoop, hmap]
  | cons j rest ih =>
    intro recs
    cases hs : statusFor sched j with
    | none => simp [refreshLoop, hs]
    | some st =>
      have hmaps : (applyUpdate parent j st recs).map (applyAll sched parent rest) =
          recs.map (applyAll sched parent (j :: rest)) := by
        unfold applyUpdate
        rw [List.map_map]
        apply List.map_congr_left
        intro r _
        exact applyAll_update sched parent j st rest hs r
      simp only [refreshLoop, hs, ih, List.all_cons, Option.isSome_some, Bool.true_and]
      by_cases hall : rest.all (fun x => (statusFor sched x).isSome) = true
      · simp [hall, hmaps]
      · simp only [Bool.not_eq_true] at hall
        simp [hall]

theorem refreshLoop_no_sbatch (sched : Sched) (parent : String) :
    ∀ (js : List String) (recs : List JobRecord),
      ((refreshLoop sched parent recs js).1.all (fun c => !isSbatchCall c)) = true := by
  intro js
  induction js with
  | nil => intro recs; simp [refreshLoop]
  | cons j rest ih =>
    intro recs
    cases hs : statusFor sched j with
    | none => simp [refreshLoop, hs, isSbatchCall]
    | some st =>
      simp only [refreshLoop, hs]
      simpa [isSbatchCall] using ih (applyUpdate parent j st recs)

theorem refresh_db_eq (sched : Sched) (parent : String) (db : DB) :
    (refresh_job_status sched parent db).db =
      if (jobidsOf parent db.records).all (fun j => (statusFor sched j).isSome)
      then some (DB.mk (db.records.map (applyAll sched parent (jobidsOf parent db.records)))
        db.nextId)
      else none := by
  unfold refresh_job_status
  simp only [refreshLoop_snd]
  by_cases h : (jobidsOf parent db.records).all (fun j => (statusFor sched j).isSome) = true
  · simp [h]
  · simp only [Bool.not_eq_true] at h
    simp [h]

theorem refresh_calls_no_sbatch (sched : Sched) (parent : String) (db : DB) :
    ((refresh_job_status sched parent db).calls.all (fun c => !isSbatchCall c)) = true := by
  unfold refresh_job_status
  exact refreshLoop_no_sbatch sched parent (jobidsOf parent db.records) db.records

theorem refresh_success (sched : Sched) (parent : String) (db db' : DB)
    (h : (refresh_job_status sched parent db).db = some db') :
    (jobidsOf parent db.records).all (fun j => (statusFor sched j).isSome) = true ∧
    db' = DB.mk (db.records.map (applyAll sched parent (jobidsOf parent db.records))) db.nextId := by
  rw [refresh_db_eq] at h
  by_cases hall : (jobidsOf parent db.records).all (fun j => (statusFor sched j).isSome) = true
  · rw [if_pos hall] at h
    exact ⟨hall, (Option.some.injEq _ _ ▸ h).symm⟩
  · simp only [Bool.not_eq_true] at hall
    rw [hall] at h
    simp at h

theorem applyAll_idem (sched : Sched) (parent : String) (js : List String) (r : JobRecord) :
    applyAll sched parent js (applyAll sched parent js r) = applyAll sched parent js r := by
  by_cases h : r.parent_dir = parent ∧ r.jobid ∈ js
  · cases hs : statusFor sched r.jobid <;>
      simp [applyAll, h.1, h.2, hs, setStatus]
  · rw [applyAll_eq_of_not sched parent js r h, applyAll_eq_of_not sched parent js r h]

theorem jobidsOf_map_applyAll (sched : Sched) (parent : String) (js : List String)
    (recs : List JobRecord) :
    jobidsOf parent (recs.map (applyAll sched parent js)) = jobidsOf parent recs := by
  induction recs with
  | nil => rfl
  | cons r t ih =>
    unfold jobidsOf at ih ⊢
    cases hp : (r.parent_dir == parent) <;>
      simp_all [List.filter_cons, applyAll_parent_eq, applyAll_jobid_eq]

theorem refresh_idem_aux (sched : Sched) (parent : String) (db db' : DB)
    (h : (refresh_job_status sched parent db).db = some db') :
    (refresh_job_status sched parent db').db = some db' := by
  obtain ⟨hall, hdb⟩ := refresh_success sched parent db db' h
  subst hdb
  rw [refresh_db_eq]
  simp only [jobidsOf_map_applyAll]
  rw [if_pos hall]
  have hmm : (db.records.map (applyAll sched parent (jobidsOf parent db.records))).map
      (applyAll sched parent (jobidsOf parent db.records)) =
      db.records.map (applyAll sched parent (jobidsOf parent db.records)) := by
    rw [List.map_map]
    apply List.map_congr_left
    intro r _
    exact applyAll_idem sched parent (jobidsOf parent db.records) r
  rw [hmm]

theorem refresh_frame (sched : Sched) (parent : String) (db db' : DB)
    (h : (refresh_job_status sched parent db).db = some db') :
    ∀ r ∈ db.records, ∃ r' ∈ db'.records,
      r'.id = r.id ∧ r'.parent_dir = r.parent_dir ∧ r'.jobid = r.jobid ∧
      r'.jobname = r.jobname ∧ r'.workingdir = r.workingdir ∧
      (r'.status = r.status ∨ statusFor sched r.jobid = some r'.status) := by
  obtain ⟨hall, hdb⟩ := refresh_success sched parent db db' h
  subst hdb
  intro r hr
  refine ⟨applyAll sched parent (jobidsOf parent db.records) r,
    List.mem_map_of_mem _ hr, by simp, by simp, by simp, by simp, by simp, ?_⟩
  by_cases hcond : r.parent_dir = parent ∧ r.jobid ∈ jobidsOf parent db.records
  · right
    have hsome : (statusFor sched r.jobid).isSome = true := by
      have := List.all_eq_true.mp hall r.jobid hcond.2
      simpa using this
    obtain ⟨s, hs⟩ := Option.isSome_iff_exists.mp hsome
    rw [applyAll_status sched parent _ r hcond.1 hcond.2, hs]
    simp
  · left
    rw [applyAll_eq_of_not sched parent _ r hcond]

theorem job_table_success (sched : Sched) (parent : String) (db : DB) (st : Option String)
    (db2 : DB) (rows : List JobRecord)
    (h : (job_table sched parent db st).result = some (db2, rows)) :
    (refresh_job_status sched parent db).db = some db2 ∧
    rows = db2.records.filter (upperFilter parent st) := by
  unfold job_table at h
  cases hr : (refresh_job_status sched parent db).db with
  | none => rw [hr] at h; simp at h
  | some dbx =>
    rw [hr] at h
    simp only [Option.map_some] at h
    have h2 := (Option.some.injEq _ _ ▸ h)
    have h3 := Prod.mk.injEq .. ▸ h2
    obtain ⟨he, hrows⟩ := h3
    subst he
    exact ⟨rfl, hrows.symm⟩

theorem submitInsert_db_mem (sched : Sched) (parent : String) (db1 : DB) (p n : String)
    (preLog : List LogEntry) (calls1 : List SchedCall) (jid : String) (r' : JobRecord)
    (h : r' ∈ db1.records) :
    r' ∈ (submitInsert sched parent db1 p n preLog calls1 jid).db.records := by
  unfold submitInsert
  split
  · exact h
  · simp only [insert_job]
    exact List.mem_append_left _ h

theorem submitSbatch_db_mem (sched : Sched) (parent : String) (db1 : DB) (p n : String)
    (preLog : List LogEntry) (calls1 : List SchedCall) (r' : JobRecord)
    (h : r' ∈ db1.records) :
    r' ∈ (submitSbatch sched parent db1 p n preLog calls1).db.records := by
  unfold submitSbatch
  split
  · exact h
  · exact submitInsert_db_mem sched parent db1 p n preLog calls1 _ r' h

theorem submitCore_db_mem (sched : Sched) (parent : String) (db1 : DB) (p n : String)
    (resub : Bool) (tr : List SchedCall) (r' : JobRecord) (h : r' ∈ db1.records) :
    r' ∈ (submitCore sched parent db1 p n resub tr).db.records := by
  unfold submitCore
  split
  · exact h
  · exact submitSbatch_db_mem sched parent db1 p n _ _ r' h

theorem isPrefixOf_self (l : List Char) : l.isPrefixOf l = true := by
  induction l with
  | nil => rfl
  | cons c t ih => simp [List.isPrefixOf, ih]

theorem isInfixL_append_self (pre needle : List Char) :
    isInfixL needle (pre ++ needle) = true := by
  induction pre with
  | nil =>
    cases needle with
    | nil => rfl
    | cons c t => simp [isInfixL, isPrefixOf_self]
  | cons c t ih => simp [isInfixL, ih]

theorem toList_append (a b : String) : (a ++ b).toList = a.toList ++ b.toList :=
  String.data_append a b

theorem mem_activeOf (parent p : String) (db1 : DB) (r : JobRecord)
    (h : r ∈ db1.records) (hp : r.parent_dir = parent) (hw : r.workingdir = p)
    (hs : r.status = "RUNNING" ∨ r.status = "PENDING") :
    r ∈ activeOf parent p db1 := by
  unfold activeOf matchingOf
  refine List.mem_filter.mpr ⟨List.mem_filter.mpr ⟨List.mem_filter.mpr ⟨h, ?_⟩, ?_⟩, ?_⟩
  · simp [upperFilter, hp]
  · simp [hw]
  · unfold isActive
    rcases hs with h1 | h1 <;> simp [h1]

theorem matchingOf_eq_nil (parent p : String) (db1 : DB)
    (h : ∀ r ∈ db1.records, r.workingdir ≠ p) : matchingOf parent p db1 = [] := by
  unfold matchingOf
  rw [List.filter_eq_nil_iff]
  intro a ha
  have : a ∈ db1.records := (List.mem_filter.mp ha).1
  simp [h a this]

theorem isEmpty_false_of_mem {α : Type} (a : α) (l : List α) (h : a ∈ l) :
    l.isEmpty = false := by
  cases l with
  | nil => cases h
  | cons b t => rfl

theorem preLogOf_no_info (parent p : String) (db1 : DB) :
    ((preLogOf parent p db1).filter (fun e => e.level == LogLevel.info)).length = 0 := by
  unfold preLogOf
  split <;> rfl

theorem submitInsert_ok_logs (sched : Sched) (parent : String) (db1 : DB) (p n : String)
    (preLog : List LogEntry) (calls1 : List SchedCall) (jid j : String)
    (hpre : (preLog.filter (fun e => e.level == LogLevel.info)).length = 0)
    (h : (submitInsert sched parent db1 p n preLog calls1 jid).outcome = SubmitOutcome.ok j) :
    (submitInsert sched parent db1 p n preLog calls1 jid).globalLog.length = 1 ∧
    (((submitInsert sched parent db1 p n preLog calls1 jid).localLog.filter
      (fun e => e.level == LogLevel.info)).length = 1) := by
  unfold submitInsert at h ⊢
  split
  · rename_i hfc
    rw [hfc] at h
    cases h
  · refine ⟨rfl, ?_⟩
    simp [List.filter_append, hpre]

theorem submitSbatch_ok_logs (sched : Sched) (parent : String) (db1 : DB) (p n : String)
    (preLog : List LogEntry) (calls1 : List SchedCall) (j : String)
    (hpre : (preLog.filter (fun e => e.level == LogLevel.info)).length = 0)
    (h : (submitSbatch sched parent db1 p n preLog calls1).outcome = SubmitOutcome.ok j) :
    (submitSbatch sched parent db1 p n preLog calls1).globalLog.length = 1 ∧
    (((submitSbatch sched parent db1 p n preLog calls1).localLog.filter
      (fun e => e.level == LogLevel.info)).length = 1) := by
  unfold submitSbatch at h ⊢
  split
  · rename_i hfc
    rw [hfc] at h
    cases h
  · rename_i jid hfc
    rw [hfc] at h
    exact submitInsert_ok_logs sched parent db1 p n preLog calls1 (String.mk jid) j hpre h

theorem submitCore_ok_logs (sched : Sched) (parent : String) (db1 : DB) (p n : String)
    (resub : Bool) (tr : List SchedCall) (j : String)
    (h : (submitCore sched parent db1 p n resub tr).outcome = SubmitOutcome.ok j) :
    (submitCore sched parent db1 p n resub tr).globalLog.length = 1 ∧
    (((submitCore sched parent db1 p n resub tr).localLog.filter
      (fun e => e.level == LogLevel.info)).length = 1) := by
  unfold submitCore at h ⊢
  split
  · rename_i hsk
    rw [if_pos hsk] at h
    cases h
  · rename_i hsk
    rw [if_neg hsk] at h
    exact submitSbatch_ok_logs sched parent db1 p n _ _ j (preLogOf_no_info parent p db1) h

theorem submit_ok_logs (sched : Sched) (parent : String) (db : DB) (p n : String)
    (resub : Bool) (j : String)
    (h : (submit_job sched parent db p n resub).outcome = SubmitOutcome.ok j) :
    (submit_job sched parent db p n resub).globalLog.length = 1 ∧
    (((submit_job sched parent db p n resub).localLog.filter
      (fun e => e.level == LogLevel.info)).length = 1) := by
  unfold submit_job at h ⊢
  split
  · rename_i hdb
    rw [hdb] at h
    cases h
  · rename_i db1 hdb
    rw [hdb] at h
    exact submitCore_ok_logs sched parent db1 p n resub
      (refresh_job_status sched parent db).calls j h

theorem submitSbatch_not_skip (sched : Sched) (parent : String) (db1 : DB) (p n : String)
    (preLog : List LogEntry) (calls1 : List SchedCall) :
    (submitSbatch sched parent db1 p n preLog calls1).outcome ≠ SubmitOutcome.skip := by
  unfold submitSbatch submitInsert
  intro h
  split at h
  · cases h
  · split at h
    · cases h
    · cases h

theorem submit_skip_logs (sched : Sched) (parent : String) (db : DB) (p n : String)
    (resub : Bool)
    (h : (submit_job sched parent db p n resub).outcome = SubmitOutcome.skip) :
    (submit_job sched parent db p n resub).localLog.length = 1 ∧
    (submit_job sched parent db p n resub).globalLog = [] := by
  unfold submit_job at h ⊢
  split
  · rename_i hdb
    rw [hdb] at h
    cases h
  · rename_i db1 hdb
    rw [hdb] at h
    have h2 : (submitCore sched parent db1 p n resub
        (refresh_job_status sched parent db).calls).outcome = SubmitOutcome.skip := h
    unfold submitCore at h2 ⊢
    split
    · exact ⟨rfl, rfl⟩
    · rename_i hsk
      rw [if_neg hsk] at h2
      exact absurd h2 (submitSbatch_not_skip sched parent db1 p n _ _)

theorem mem_jobidsOf (parent : String) (recs : List JobRecord) (r : JobRecord)
    (hr : r ∈ recs) (hp : r.parent_dir = parent) : r.jobid ∈ jobidsOf parent recs := by
  unfold jobidsOf
  exact List.mem_map.mpr ⟨r, List.mem_filter.mpr ⟨hr, by simp [hp]⟩, rfl⟩

/-- C1 counterexample: a store with one PENDING record for /jobs/a, submit with
resubmit=false: the result is a skip and nothing is inserted, but the claimed
zero scheduler calls is false, because the refresh embedded in the duplicate
check issues a scontrol detail query for the recorded job. -/
theorem submit_skip_still_queries_scheduler :
    (submit_job sched1 "/jobs" db1cex "/jobs/a" "a" false).outcome = SubmitOutcome.skip ∧
    (submit_job sched1 "/jobs" db1cex "/jobs/a" "a" false).calls = [SchedCall.scontrol "123"] ∧
    (submit_job sched1 "/jobs" db1cex "/jobs/a" "a" false).calls ≠ [] ∧
    (submit_job sched1 "/jobs" db1cex "/jobs/a" "a" false).db = db1cex := by
  refine ⟨by decide, by decide, by decide, by decide⟩

/-- C1 amended: when the store still holds, after the refresh that submit
itself performs, a record whose workingdir equals the absolutized caller path
with status RUNNING or PENDING, then submit with resubmit=false returns a
skip, makes no sbatch call (its scheduler interactions are only the refresh
queries), and neither inserts nor deletes a record: the row ids are exactly
those of the store before the call. -/
theorem submit_active_skip (sched : Sched) (parent p n : String) (db db1 : DB)
    (h1 : (refresh_job_status sched parent db).db = some db1)
    (h2 : ∃ r ∈ db1.records, r.parent_dir = parent ∧ r.workingdir = p ∧
      (r.status = "RUNNING" ∨ r.status = "PENDING")) :
    (submit_job sched parent db p n false).outcome = SubmitOutcome.skip ∧
    (submit_job sched parent db p n false).db = db1 ∧
    ((submit_job sched parent db p n false).calls.all (fun c => !isSbatchCall c)) = true ∧
    (submit_job sched parent db p n false).db.records.map JobRecord.id =
      db.records.map JobRecord.id := by
  obtain ⟨r, hr, hp, hw, hs⟩ := h2
  have hact : r ∈ activeOf parent p db1 := mem_activeOf parent p db1 r hr hp hw hs
  have hne : (activeOf parent p db1).isEmpty = false := isEmpty_false_of_mem r _ hact
  have hcond : (!(activeOf parent p db1).isEmpty && !false) = true := by
    rw [hne]; rfl
  have key : submit_job sched parent db p n false =
      submitCore sched parent db1 p n false (refresh_job_status sched parent db).calls := by
    unfold submit_job
    rw [h1]
  have hcore : submitCore sched parent db1 p n false (refresh_job_status sched parent db).calls =
      SubmitRes.mk db1 SubmitOutcome.skip
        [LogEntry.mk LogLevel.warning
          (msgActive p (((activeOf parent p db1).headD defaultRec).status))]
        [] (refresh_job_status sched parent db).calls := by
    unfold submitCore
    rw [if_pos hcond]
  obtain ⟨hall, hdb⟩ := refresh_success sched parent db db1 h1
  rw [key, hcore]
  refine ⟨rfl, rfl, refresh_calls_no_sbatch sched parent db, ?_⟩
  show db1.records.map JobRecord.id = db.records.map JobRecord.id
  rw [hdb]
  show (db.records.map (applyAll sched parent (jobidsOf parent db.records))).map JobRecord.id =
    db.records.map JobRecord.id
  rw [List.map_map]
  apply List.map_congr_left
  intro r2 _
  simp [Function.comp]

/-- C1 witness: the amended theorem applied to the concrete PENDING record. -/
theorem submit_active_skip_witness :
    (submit_job sched1 "/jobs" db1cex "/jobs/a" "a" false).db = db1cex ∧
    ((submit_job sched1 "/jobs" db1cex "/jobs/a" "a" false).calls.all
      (fun c => !isSbatchCall c)) = true := by
  have h := submit_active_skip sched1 "/jobs" "/jobs/a" "a" db1cex db1cex (by decide)
    ⟨JobRecord.mk 1 "/jobs" "123" "a" "PENDING" "/jobs/a", by decide, rfl, rfl, Or.inr rfl⟩
  exact ⟨h.2.1, h.2.2.1⟩

/-- C2: when the sbatch acknowledgment has no parseable job id, the code sets
jobid to None and then crashes in the scontrol subprocess call (a raw
TypeError, the errNoJobId outcome), before any store write: the store still
has no record, and in particular none with a null job id, but no defined
SubmissionFailure error value is surfaced. -/
theorem submit_no_jobid_crashes_before_insert :
    (submit_job sched2bad "/p" db0 "/p/a" "n" false).outcome = SubmitOutcome.errNoJobId ∧
    (submit_job sched2bad "/p" db0 "/p/a" "n" false).db.records = [] := by
  refine ⟨by decide, by decide⟩

/-- C3: after a successful refresh, every record of the owner directory whose
job id the scheduler reports as unrecognized (the invalid-id phrase in the
scontrol stderr) has status UNKNOWN, every other record of the directory has
the JobState token of the parsed scontrol stdout verbatim, and refreshing the
committed table again against the same scheduler view is the identity. -/
theorem refresh_unknown_and_verbatim (sched : Sched) (parent : String) (db db' : DB)
    (h : (refresh_job_status sched parent db).db = some db') :
    (∀ r' ∈ db'.records, r'.parent_dir = parent →
      ((isInfixL invalidPhrase.toList (sched.scontrolErr r'.jobid).toList = true →
        r'.status = "UNKNOWN") ∧
       (isInfixL invalidPhrase.toList (sched.scontrolErr r'.jobid).toList = false →
        ∃ d, parse_scontrol_output (sched.scontrolOut r'.jobid) = some d ∧
          r'.status = d.status))) ∧
    (refresh_job_status sched parent db').db = some db' := by
  refine ⟨?_, refresh_idem_aux sched parent db db' h⟩
  obtain ⟨hall, hdb⟩ := refresh_success sched parent db db' h
  subst hdb
  intro r' hr' hpar
  obtain ⟨r, hr, hEq⟩ := List.mem_map.mp hr'
  subst hEq
  rw [applyAll_parent_eq] at hpar
  have hmem : r.jobid ∈ jobidsOf parent db.records := mem_jobidsOf parent db.records r hr hpar
  have hsome : (statusFor sched r.jobid).isSome = true := by
    simpa using List.all_eq_true.mp hall r.jobid hmem
  have hst : (applyAll sched parent (jobidsOf parent db.records) r).status =
      (statusFor sched r.jobid).getD r.status := applyAll_status sched parent _ r hpar hmem
  constructor
  · intro hinv
    rw [applyAll_jobid_eq] at hinv
    have h1 : statusFor sched r.jobid = some "UNKNOWN" := by
      unfold statusFor
      rw [hinv]
      simp
    rw [hst, h1]
    rfl
  · intro hinv
    rw [applyAll_jobid_eq] at hinv
    have h1 : statusFor sched r.jobid =
        (parse_scontrol_output (sched.scontrolOut r.jobid)).map JobDetails.status := by
      unfold statusFor
      rw [hinv]
      simp
    cases hp2 : parse_scontrol_output (sched.scontrolOut r.jobid) with
    | none =>
      rw [h1, hp2] at hsome
      simp at hsome
    | some d =>
      rw [applyAll_jobid_eq]
      refine ⟨d, hp2, ?_⟩
      rw [hst, h1, hp2]
      rfl

/-- C3 witness: the theorem applied to a store holding one unrecognized job
(set to UNKNOWN) and one recognized COMPLETED job; concretely the second
refresh is the identity. -/
theorem refresh_unknown_and_verbatim_witness :
    (refresh_job_status sched3 "/q" db3r).db = some db3r :=
  (refresh_unknown_and_verbatim sched3 "/q" db3 db3r (by decide)).2

/-- C4 counterexample: the scheduler reports the mixed-case token Running for
job 9; listing with the filter running (case-insensitively equal to the
stored status) returns no rows, because only the filter side is upper-cased
while the stored status is compared exactly. -/
theorem job_table_case_sensitive_store :
    (pyLower "Running" = pyLower "running") ∧
    (job_table sched4 "/p" db4 (some "running")).result = some (db4r, []) := by
  refine ⟨by decide, by decide⟩

/-- C4 amended: the listing returns exactly the refreshed rows of the owner
directory whose stored status is string-equal to the upper-cased filter (so
case-insensitivity applies to the filter argument only, not to the stored
status); with no filter, or the empty-string filter, it returns all rows of
the owner directory. -/
theorem job_table_filter_semantics (sched : Sched) (parent : String) (db db2 : DB)
    (filt : Option String) (rows : List JobRecord)
    (h : (job_table sched parent db filt).result = some (db2, rows)) :
    ∀ r, r ∈ rows ↔ (r ∈ db2.records ∧ r.parent_dir = parent ∧
      (match filt with
       | none => True
       | some s => s = "" ∨ r.status = pyUpper s)) := by
  obtain ⟨href, hrows⟩ := job_table_success sched parent db filt db2 rows h
  subst hrows
  intro r
  rw [List.mem_filter]
  unfold upperFilter
  cases filt with
  | none => simp [and_assoc]
  | some s =>
    by_cases hs : s = ""
    · subst hs
      simp [and_assoc]
    · simp [hs, and_assoc]

/-- C4 witness: with no filter the mixed-case row is returned. -/
theorem job_table_filter_semantics_witness :
    JobRecord.mk 9 "/p" "9" "a" "Running" "/p/a" ∈ rows4 := by
  have h := (job_table_filter_semantics sched4 "/p" db4 db4r none rows4 (by decide))
    (JobRecord.mk 9 "/p" "9" "a" "Running" "/p/a")
  exact h.mpr ⟨by decide, rfl, trivial⟩

/-- C5 counterexample: the submit skip emits its warning to the
directory-scoped sink only; the process-wide sink receives nothing, so the
claim that every state-changing operation writes one entry to each sink fails
on the submit-skip case. -/
theorem submit_skip_logs_local_only :
    (submit_job sched1 "/jobs" db1cex "/jobs/a" "a" false).outcome = SubmitOutcome.skip ∧
    (submit_job sched1 "/jobs" db1cex "/jobs/a" "a" false).localLog.length = 1 ∧
    (submit_job sched1 "/jobs" db1cex "/jobs/a" "a" false).globalLog = [] := by
  refine ⟨by decide, by decide, by decide⟩

/-- C5 amended: submit success emits exactly one entry to the process-wide
sink and exactly one info entry to the directory-scoped sink (which may also
carry the previously-cancelled warning); cancel success and cancel failure
emit exactly one entry to each sink; submit skip emits exactly one entry to
the directory-scoped sink and none to the process-wide sink. -/
theorem state_change_log_sinks (sched : Sched) (parent : String) (db : DB) (p n jid : String)
    (resub : Bool) :
    (∀ j, (submit_job sched parent db p n resub).outcome = SubmitOutcome.ok j →
      (submit_job sched parent db p n resub).globalLog.length = 1 ∧
      (((submit_job sched parent db p n resub).localLog.filter
        (fun e => e.level == LogLevel.info)).length = 1)) ∧
    ((submit_job sched parent db p n resub).outcome = SubmitOutcome.skip →
      (submit_job sched parent db p n resub).localLog.length = 1 ∧
      (submit_job sched parent db p n resub).globalLog = []) ∧
    ((cancel_job sched parent db jid).localLog.length = 1 ∧
      (cancel_job sched parent db jid).globalLog.length = 1) := by
  refine ⟨fun j h => submit_ok_logs sched parent db p n resub j h,
    fun h => submit_skip_logs sched parent db p n resub h, ?_⟩
  unfold cancel_job
  split
  · exact ⟨rfl, rfl⟩
  · exact ⟨rfl, rfl⟩

/-- C5 witness: the amended theorem at a successful submit and a cancel. -/
theorem state_change_log_sinks_witness :
    (submit_job sched10 "/jobs" db10 "/jobs/a" "new" false).globalLog.length = 1 ∧
    (cancel_job sched10 "/jobs" db10 "55").localLog.length = 1 := by
  have h := state_change_log_sinks sched10 "/jobs" db10 "/jobs/a" "new" "55" false
  exact ⟨(h.1 "7" (by decide)).1, h.2.2.1⟩

/-- C6: the listing operation (refresh then select) preserves every field of
every stored row except status, and a row of the owner directory stored as
PENDING whose scheduler response now reports RUNNING appears in the listed
rows with status RUNNING and all other fields unchanged. -/
theorem refresh_changes_only_status (sched : Sched) (parent : String) (db db2 : DB)
    (rows : List JobRecord)
    (h : (job_table sched parent db none).result = some (db2, rows)) :
    (∀ r ∈ db.records, ∃ r' ∈ db2.records,
      r'.id = r.id ∧ r'.parent_dir = r.parent_dir ∧ r'.jobid = r.jobid ∧
      r'.jobname = r.jobname ∧ r'.workingdir = r.workingdir) ∧
    (∀ r ∈ db.records, r.parent_dir = parent → r.status = "PENDING" →
      statusFor sched r.jobid = some "RUNNING" →
      ∃ r' ∈ rows, r'.id = r.id ∧ r'.parent_dir = r.parent_dir ∧ r'.jobid = r.jobid ∧
        r'.jobname = r.jobname ∧ r'.workingdir = r.workingdir ∧ r'.status = "RUNNING") := by
  obtain ⟨href, hrows⟩ := job_table_success sched parent db none db2 rows h
  constructor
  · intro r hr
    obtain ⟨r', hr', h1, h2, h3, h4, h5, _⟩ := refresh_frame sched parent db db2 href r hr
    exact ⟨r', hr', h1, h2, h3, h4, h5⟩
  · intro r hr hpar hpend hrun
    obtain ⟨hall, hdb⟩ := refresh_success sched parent db db2 href
    subst hdb
    subst hrows
    have hmem : r.jobid ∈ jobidsOf parent db.records := mem_jobidsOf parent db.records r hr hpar
    refine ⟨applyAll sched parent (jobidsOf parent db.records) r, ?_,
      by simp, by simp, by simp, by simp, by simp, ?_⟩
    · apply List.mem_filter.mpr
      refine ⟨List.mem_map_of_mem _ hr, ?_⟩
      simp [upperFilter, hpar]
    · rw [applyAll_status sched parent _ r hpar hmem, hrun]
      rfl

/-- C6 witness: the theorem at the concrete PENDING row refreshed to RUNNING. -/
theorem refresh_changes_only_status_witness :
    ∃ r' ∈ rows6, r'.id = 3 ∧ r'.parent_dir = "/w" ∧ r'.jobid = "21" ∧
      r'.jobname = "nm" ∧ r'.workingdir = "/w/a" ∧ r'.status = "RUNNING" :=
  (refresh_changes_only_status sched6 "/w" db6 db6r rows6 (by decide)).2
    (JobRecord.mk 3 "/w" "21" "nm" "PENDING" "/w/a") (by decide) rfl rfl (by decide)

/-- C7: the scontrol answer for job 1 misses the JobId= marker; the refresh
raises the raw AttributeError (no MalformedResponse value exists in the
code), the transaction is rolled back, and job 2 is never queried: the single
malformed response aborts the reconciliation of the remaining jobs. -/
theorem refresh_malformed_aborts :
    (refresh_job_status sched7 "/p" db7).db = none ∧
    (refresh_job_status sched7 "/p" db7).calls = [SchedCall.scontrol "1"] := by
  refine ⟨by decide, by decide⟩

/-- C8: cancel reports success exactly when the scancel exit code is zero
(both sinks then carry only info entries); on a non-zero exit it appends to
each sink exactly the error entry whose message embeds the captured stderr
text; and the success classification depends on the exit code alone, not on
any output text the process produced. -/
theorem cancel_exit_code_semantics (sched : Sched) (parent : String) (db : DB) (jid : String) :
    (((cancel_job sched parent db jid).localLog.all (fun e => e.level == LogLevel.info) &&
      (cancel_job sched parent db jid).globalLog.all (fun e => e.level == LogLevel.info)) = true ↔
      sched.scancelCode jid = 0) ∧
    (sched.scancelCode jid ≠ 0 →
      (cancel_job sched parent db jid).localLog =
        [LogEntry.mk LogLevel.error (msgCancelFailLocal jid (sched.scancelErr jid))] ∧
      (cancel_job sched parent db jid).globalLog =
        [LogEntry.mk LogLevel.error (msgCancelFailGlobal jid parent (sched.scancelErr jid))] ∧
      isInfixL (sched.scancelErr jid).toList
        (msgCancelFailLocal jid (sched.scancelErr jid)).toList = true) ∧
    (∀ sched2 : Sched, sched2.scancelCode jid = sched.scancelCode jid →
      ((cancel_job sched2 parent db jid).localLog.all (fun e => e.level == LogLevel.info)) =
      ((cancel_job sched parent db jid).localLog.all (fun e => e.level == LogLevel.info))) := by
  by_cases hc : sched.scancelCode jid = 0
  · have hcb : (sched.scancelCode jid == 0) = true := by simp [hc]
    refine ⟨?_, fun hne => absurd hc hne, ?_⟩
    · unfold cancel_job
      rw [if_pos hcb]
      simp [hc]
    · intro sched2 h2
      have h2b : (sched2.scancelCode jid == 0) = true := by rw [h2]; exact hcb
      unfold cancel_job
      rw [if_pos h2b, if_pos hcb]
  · have hcb : (sched.scancelCode jid == 0) = false := by simp [hc]
    refine ⟨?_, fun _ => ?_, ?_⟩
    · unfold cancel_job
      rw [if_neg (by simp [hcb])]
      simp [hc]
    · unfold cancel_job
      rw [if_neg (by simp [hcb])]
      refine ⟨rfl, rfl, ?_⟩
      unfold msgCancelFailLocal
      rw [toList_append]
      exact isInfixL_append_self _ _
    · intro sched2 h2
      have h2b : (sched2.scancelCode jid == 0) = false := by rw [h2]; exact hcb
      unfold cancel_job
      rw [if_neg (by simp [h2b]), if_neg (by simp [hcb])]
      rfl

/-- C8 witness: a scancel that exits 1 with stderr boom. -/
theorem cancel_exit_code_semantics_witness :
    (cancel_job sched8 "/p" db0 "42").localLog =
      [LogEntry.mk LogLevel.error (msgCancelFailLocal "42" "boom")] ∧
    isInfixL "boom".toList (msgCancelFailLocal "42" "boom").toList = true := by
  have h := (cancel_exit_code_semantics sched8 "/p" db0 "42").2.1 (by decide)
  exact ⟨h.1, h.2.2⟩

/-- C9: no public operation deletes a row: every stored row survives submit
(possibly with its status rewritten by the embedded refresh, to the value the
reconciliation derives from the scheduler) and survives the listing the same
way, so the set of row ids only grows; and cancel leaves the store untouched
entirely. -/
theorem records_grow_and_cancel_pure (sched : Sched) (parent : String) (db : DB)
    (p n jid : String) (resub : Bool) (filt : Option String) :
    (∀ r ∈ db.records, ∃ r' ∈ (submit_job sched parent db p n resub).db.records,
      r'.id = r.id ∧ r'.parent_dir = r.parent_dir ∧ r'.jobid = r.jobid ∧
      r'.jobname = r.jobname ∧ r'.workingdir = r.workingdir ∧
      (r'.status = r.status ∨ statusFor sched r.jobid = some r'.status)) ∧
    (∀ db2 rows, (job_table sched parent db filt).result = some (db2, rows) →
      ∀ r ∈ db.records, ∃ r' ∈ db2.records,
        r'.id = r.id ∧ r'.parent_dir = r.parent_dir ∧ r'.jobid = r.jobid ∧
        r'.jobname = r.jobname ∧ r'.workingdir = r.workingdir ∧
        (r'.status = r.status ∨ statusFor sched r.jobid = some r'.status)) ∧
    ((cancel_job sched parent db jid).db = db) := by
  refine ⟨?_, ?_, ?_⟩
  · intro r hr
    unfold submit_job
    cases hdb : (refresh_job_status sched parent db).db with
    | none => exact ⟨r, hr, rfl, rfl, rfl, rfl, rfl, Or.inl rfl⟩
    | some db1 =>
      obtain ⟨r', hr', hfr⟩ := refresh_frame sched parent db db1 hdb r hr
      exact ⟨r', submitCore_db_mem sched parent db1 p n resub _ r' hr', hfr⟩
  · intro db2 rows h r hr
    obtain ⟨href, _⟩ := job_table_success sched parent db filt db2 rows h
    exact refresh_frame sched parent db db2 href r hr
  · unfold cancel_job
    split
    · rfl
    · rfl

/-- C9 witness: the cancel part at a concrete store, and the submit part at
the concrete PENDING row. -/
theorem records_grow_and_cancel_pure_witness :
    (cancel_job sched1 "/jobs" db1cex "123").db = db1cex ∧
    (∃ r' ∈ (submit_job sched1 "/jobs" db1cex "/jobs/a" "a" false).db.records,
      r'.id = 1 ∧ r'.parent_dir = "/jobs" ∧ r'.jobid = "123" ∧
      r'.jobname = "a" ∧ r'.workingdir = "/jobs/a" ∧
      (r'.status = "PENDING" ∨ statusFor sched1 "123" = some r'.status)) := by
  have h := records_grow_and_cancel_pure sched1 "/jobs" db1cex "/jobs/a" "a" "123" false none
  exact ⟨h.2.2, h.1 (JobRecord.mk 1 "/jobs" "123" "a" "PENDING" "/jobs/a") (by decide)⟩

/-- C10: the duplicate check compares the absolutized caller path and the
stored workingdir by exact string equality, so when no stored row carries
exactly that string (even when rows exist whose stored path differs only
textually, for example by a trailing slash), submit always proceeds to the
sbatch call; and the row a successful submit inserts stores the workingdir
echoed by the scheduler detail response, not the caller path. -/
theorem submit_duplicate_check_exact_string (sched : Sched) (parent p n : String) (resub : Bool)
    (db db1 : DB)
    (h1 : (refresh_job_status sched parent db).db = some db1)
    (h2 : ∀ r ∈ db1.records, r.workingdir ≠ p) :
    SchedCall.sbatch p ∈ (submit_job sched parent db p n resub).calls ∧
    (submit_job sched parent db p n resub).outcome ≠ SubmitOutcome.skip ∧
    (∀ jid d, (submit_job sched parent db p n resub).outcome = SubmitOutcome.ok jid →
      parse_scontrol_output (sched.scontrolOut jid) = some d →
      (submit_job sched parent db p n resub).db.records.getLast? =
        some (JobRecord.mk db1.nextId parent d.jobid n d.status d.workingdir)) := by
  have hmat : matchingOf parent p db1 = [] := matchingOf_eq_nil parent p db1 h2
  have hact : activeOf parent p db1 = [] := by
    unfold activeOf
    rw [hmat]
    rfl
  have hcond : ¬((!(activeOf parent p db1).isEmpty && !resub) = true) := by
    rw [hact]
    simp
  have key : submit_job sched parent db p n resub =
      submitSbatch sched parent db1 p n (preLogOf parent p db1)
        ((refresh_job_status sched parent db).calls ++ [SchedCall.sbatch p]) := by
    unfold submit_job
    rw [h1]
    show submitCore sched parent db1 p n resub (refresh_job_status sched parent db).calls = _
    unfold submitCore
    rw [if_neg hcond]
  rw [key]
  refine ⟨?_, submitSbatch_not_skip sched parent db1 p n _ _, ?_⟩
  · unfold submitSbatch submitInsert
    split
    · simp
    · split
      · simp
      · simp
  · intro jid d hok hparse
    cases hfc : findCapture "Submitted batch job ".toList Char.isDigit sched.sbatchOut.toList with
    | none =>
      unfold submitSbatch at hok
      rw [hfc] at hok
      cases hok
    | some jl =>
      have key2 : submitSbatch sched parent db1 p n (preLogOf parent p db1)
          ((refresh_job_status sched parent db).calls ++ [SchedCall.sbatch p]) =
          submitInsert sched parent db1 p n (preLogOf parent p db1)
            ((refresh_job_status sched parent db).calls ++ [SchedCall.sbatch p])
            (String.mk jl) := by
        unfold submitSbatch
        rw [hfc]
      rw [key2] at hok ⊢
      have hj : jid = String.mk jl := by
        unfold submitInsert at hok
        cases hpp : parse_scontrol_output (sched.scontrolOut (String.mk jl)) with
        | none =>
          rw [hpp] at hok
          cases hok
        | some d0 =>
          rw [hpp] at hok
          cases hok
          rfl
      subst hj
      unfold submitInsert
      rw [hparse]
      show (insert_job parent db1 d.jobid n d.status d.workingdir).records.getLast? = _
      unfold insert_job
      exact List.getLast?_concat _

/-- C10 witness: a stored active row for /jobs/a/ (trailing slash) does not
block a submit for /jobs/a, and the inserted row carries the scheduler-echoed
workingdir /jobs/b rather than the caller path. -/
theorem submit_duplicate_check_exact_string_witness :
    SchedCall.sbatch "/jobs/a" ∈ (submit_job sched10 "/jobs" db10 "/jobs/a" "new" false).calls ∧
    (submit_job sched10 "/jobs" db10 "/jobs/a" "new" false).db.records.getLast? =
      some (JobRecord.mk 5 "/jobs" "7" "new" "PENDING" "/jobs/b") := by
  have h := submit_duplicate_check_exact_string sched10 "/jobs" "/jobs/a" "new" false db10 db10
    (by decide) (by decide)
  exact ⟨h.1, h.2.2 "7" (JobDetails.mk "7" "PENDING" "/jobs/b") (by decide) (by decide)⟩
